import Mathlib

/-!
Verification of the giwa-react-native-wallet security core

Shallow embedding of the security-relevant parts of the repository:

* `src/src/utils/securityAudit.ts` — `SecurityAuditLogger` (sanitization,
  bounded in-memory log, external sink handling);
* `src/utils/rateLimiter.ts` (shipped unnamed) — `RateLimiter` and its
  export configuration;
* `src/src/utils/errors.ts` — the `GiwaSecurityError` hierarchy;
* `src/src/adapters/expo/ExpoSecureStorage.ts` — the unsupported
  `getAllKeys` / `clear` operations;
* `src/src/providers/GiwaProvider.tsx` — the initialization flow guarding
  `WalletManager` construction on environment detection.

JavaScript `number` timestamps and durations are modelled as `Int` (all the
values the code manipulates are integral milliseconds); counts are `Nat`.
JavaScript `Map` objects are modelled as total functions from keys, with the
absent case encoded as the value the code observes through `get(k) || []`
respectively `Option`.  Strings are Lean `String`s; the sanitizer's character
classes are ASCII, matching the regexes in the source.
-/

/-! ## Sanitizer (securityAudit.ts lines 194–260) -/

/-- ASCII hexadecimal digit, the character class `[a-fA-F0-9]` of the
`looksLikePrivateKey` regex in `securityAudit.ts`. -/
def isHexDigitChar (c : Char) : Bool :=
  ('0' ≤ c && c ≤ '9') || ('a' ≤ c && c ≤ 'f') || ('A' ≤ c && c ≤ 'F')

/-- The anchored regex `^(0x)?[a-fA-F0-9]{64}$` on a character list: either
exactly 64 hex digits, or `0x` followed by exactly 64 hex digits.  (The two
branches are mutually exclusive because `x` is not a hex digit.) -/
def matchesHex64 (cs : List Char) : Bool :=
  (cs.length == 64 && cs.all isHexDigitChar)
    || (match cs with
        | '0' :: 'x' :: rest => rest.length == 64 && rest.all isHexDigitChar
        | _ => false)

/-- JS `String.prototype.trim()`: drop leading and trailing whitespace. -/
def trimChars (cs : List Char) : List Char :=
  ((cs.dropWhile Char.isWhitespace).reverse.dropWhile Char.isWhitespace).reverse

/-- Source `SecurityAuditLogger.looksLikePrivateKey`: `hexPattern.test(value.trim())`
with `hexPattern = /^(0x)?[a-fA-F0-9]{64}$/`. -/
def looksLikePrivateKey (value : String) : Bool :=
  matchesHex64 (trimChars value.toList)

/-- Number of maximal non-whitespace runs, tracking whether the scan is
currently inside a word.  `countWordsAux cs false` is the length of
`value.trim().split(/\s+/)` for every string whose trim is non-empty (for an
all-whitespace string JavaScript yields `[""]`, length 1, while this yields 0;
both disagree with 12 and 24, the only lengths the code inspects). -/
def countWordsAux : List Char → Bool → Nat
  | [], _ => 0
  | c :: rest, inWord =>
    if Char.isWhitespace c then countWordsAux rest false
    else (if inWord then 0 else 1) + countWordsAux rest true

/-- Source `SecurityAuditLogger.looksLikeMnemonic`:
`value.trim().split(/\s+/)` has length 12 or 24. -/
def looksLikeMnemonic (value : String) : Bool :=
  countWordsAux (trimChars value.toList) false == 12
    || countWordsAux (trimChars value.toList) false == 24

/-- The `sensitiveKeys` array of `sanitizeDetails`. -/
def sensitiveKeys : List String :=
  ["privateKey", "mnemonic", "seed", "secret", "password", "key"]

/-- Whether `needle` occurs at the start of `hay`. -/
def listStartsWith : List Char → List Char → Bool
  | [], _ => true
  | _ :: _, [] => false
  | a :: as, b :: bs => a == b && listStartsWith as bs

/-- JS `String.prototype.includes`: `needle` occurs contiguously in `hay`. -/
def listContainsSub (needle hay : List Char) : Bool :=
  hay.tails.any (fun t => listStartsWith needle t)

/-- The A–Z case-mapping table: the effect of
`String.prototype.toLowerCase()` on the ASCII range (the sanitizer's term
list and the detail keys of interest are ASCII). -/
def upperLowerTable : List (Char × Char) :=
  [('A', 'a'), ('B', 'b'), ('C', 'c'), ('D', 'd'), ('E', 'e'), ('F', 'f'),
   ('G', 'g'), ('H', 'h'), ('I', 'i'), ('J', 'j'), ('K', 'k'), ('L', 'l'),
   ('M', 'm'), ('N', 'n'), ('O', 'o'), ('P', 'p'), ('Q', 'q'), ('R', 'r'),
   ('S', 's'), ('T', 't'), ('U', 'u'), ('V', 'v'), ('W', 'w'), ('X', 'x'),
   ('Y', 'y'), ('Z', 'z')]

/-- ASCII lowercasing of one character via the table; characters outside A–Z
are unchanged. -/
def lowerChar (c : Char) : Char :=
  ((upperLowerTable.find? (fun p => p.1 == c)).map Prod.snd).getD c

/-- JS `key.toLowerCase()` on the character list. -/
def lowerChars (cs : List Char) : List Char := cs.map lowerChar

/-- Source `sensitiveKeys.some((sk) => lowerKey.includes(sk))` with
`lowerKey = key.toLowerCase()`. -/
def isSensitiveKey (k : String) : Bool :=
  sensitiveKeys.any (fun sk => listContainsSub sk.toList (lowerChars k.toList))

/-- A value of a `Record<string, unknown>` as the sanitizer observes it:
either a string or an opaque non-string value (tagged so distinct non-string
values stay distinct). -/
inductive DetailValue where
  | str (s : String)
  | raw (tag : String)
deriving Repr, DecidableEq

/-- The body of the `for (const [key, value] of Object.entries(details))` loop
of `SecurityAuditLogger.sanitizeDetails`, acting on one entry. -/
def sanitizeEntry (kv : String × DetailValue) : String × DetailValue :=
  if isSensitiveKey kv.1 then (kv.1, DetailValue.str "[REDACTED]")
  else
    match kv.2 with
    | DetailValue.str v =>
      if looksLikePrivateKey v then (kv.1, DetailValue.str "[REDACTED_KEY]")
      else if looksLikeMnemonic v then (kv.1, DetailValue.str "[REDACTED_MNEMONIC]")
      else (kv.1, DetailValue.str v)
    | DetailValue.raw t => (kv.1, DetailValue.raw t)

/-- Source `SecurityAuditLogger.sanitizeDetails`: `undefined` passes through, and an
object is rebuilt entry by entry (insertion order preserved, as
`Object.entries` does). -/
def sanitizeDetails :
    Option (List (String × DetailValue)) → Option (List (String × DetailValue))
  | none => none
  | some l => some (l.map sanitizeEntry)

/-- Source `SecurityAuditLogger.maskAddress`: strings shorter than 12 characters
(including the empty string, falsy in the source's `!address` check) map to
`"[INVALID_ADDRESS]"`, others to first-6 + `"..."` + last-4. -/
def maskAddress (address : String) : String :=
  if address.length < 12 then "[INVALID_ADDRESS]"
  else
    String.mk (address.toList.take 6) ++ "..."
      ++ String.mk (address.toList.drop (address.length - 4))

/-! ## Security audit logger state (securityAudit.ts lines 64–133) -/

/-- Source `SecurityLogEntry`. -/
structure SecurityLogEntry where
  type : String
  timestamp : String
  details : Option (List (String × DetailValue))
  walletAddressHint : Option String
deriving Repr, DecidableEq

/-- Source `SecurityAuditConfig` as resolved by the constructor, except the console
flag (which only affects `console.log`) and with the custom handler modelled
as an optional function that can throw (`Except.error`). -/
structure AuditConfig where
  maxLogEntries : Option Nat
  customLogHandler : Option (SecurityLogEntry → Except String Unit)

/-- The capacity the `log` method actually enforces:
the constructor defaults `maxLogEntries` to 100, and the guard
`this.config.maxLogEntries || 100` re-defaults a falsy (zero) value. -/
def effectiveMaxEntries (m : Option Nat) : Nat :=
  let r := m.getD 100
  if r = 0 then 100 else r

/-- The arguments of one `log` call (the timestamp stands for
`new Date().toISOString()`). -/
structure LogInput where
  type : String
  details : Option (List (String × DetailValue))
  walletAddress : Option String
  timestamp : String
deriving Repr, DecidableEq

/-- The entry built at the top of `SecurityAuditLogger.log`. -/
def mkEntry (i : LogInput) : SecurityLogEntry :=
  { type := i.type
    timestamp := i.timestamp
    details := sanitizeDetails i.details
    walletAddressHint := i.walletAddress.map maskAddress }

/-- The storage step of `log`: `push` the entry, then `shift` once if the
length exceeds the capacity. -/
def logStep (cap : Nat) (entries : List SecurityLogEntry)
    (e : SecurityLogEntry) : List SecurityLogEntry :=
  let pushed := entries ++ [e]
  if cap < pushed.length then pushed.drop 1 else pushed

/-- Result of one `log` call: the new in-memory log, the sanitized entries
handed to the custom handler (in order), and the outcome propagated to the
caller.  The `try { ... } catch {}` around the handler call makes the
propagated outcome `Except.ok ()` whatever the handler does. -/
structure LogResult where
  newEntries : List SecurityLogEntry
  sinkCalls : List SecurityLogEntry
  outcome : Except String Unit

/-- Source `SecurityAuditLogger.log`. -/
def logRun (cfg : AuditConfig) (entries : List SecurityLogEntry)
    (i : LogInput) : LogResult :=
  let entry := mkEntry i
  let stored := logStep (effectiveMaxEntries cfg.maxLogEntries) entries entry
  match cfg.customLogHandler with
  | none => { newEntries := stored, sinkCalls := [], outcome := Except.ok () }
  | some h =>
    match h entry with
    | Except.ok _ => { newEntries := stored, sinkCalls := [entry], outcome := Except.ok () }
    | Except.error _ => { newEntries := stored, sinkCalls := [entry], outcome := Except.ok () }

/-- A sequence of `log` calls, tracking only the in-memory log. -/
def logFold (cfg : AuditConfig) (start : List SecurityLogEntry)
    (inputs : List LogInput) : List SecurityLogEntry :=
  inputs.foldl (fun acc i => (logRun cfg acc i).newEntries) start

/-! ## Errors (errors.ts) -/

/-- A thrown `GiwaError` as observed by a caller: `name`, `message`, the
`code` field set by the `GiwaError` constructor, and the `cause` field.  At
runtime `cause` holds whatever second argument the call site passed (the
declared type is `Error`, but JavaScript does not check). -/
structure GiwaErrorVal where
  name : String
  message : String
  code : String
  cause : Option String
deriving Repr, DecidableEq

/-- Source `new GiwaSecurityError(message)`: the constructor in `errors.ts` forwards
`(message, 'SECURITY_ERROR', cause)` to `GiwaError`. -/
def giwaSecurityError1 (message : String) : GiwaErrorVal :=
  { name := "GiwaSecurityError", message := message
    code := "SECURITY_ERROR", cause := none }

/-- The runtime result of applying the two-parameter `GiwaSecurityError`
constructor of `errors.ts` to the *three* arguments supplied at the rate
limiter's throw sites: the second argument (the string
`'RATE_LIMIT_EXCEEDED'`) lands in the `cause` parameter, the third argument
(the details object, modelled as a labelled list of numbers) is discarded
because the constructor has no third parameter, and `code` is fixed to
`"SECURITY_ERROR"` by the constructor body. -/
def giwaSecurityError3 (message : String) (arg2 : String)
    (arg3 : List (String × Int)) : GiwaErrorVal :=
  let _ := arg3
  { name := "GiwaSecurityError", message := message
    code := "SECURITY_ERROR", cause := some arg2 }

/-! ## Rate limiter (rateLimiter.ts, shipped as src/unnamed/part_017) -/

/-- Source `RateLimitConfig`.  `maxAttempts` is a count; the durations are integral
milliseconds. -/
structure RateLimitConfig where
  maxAttempts : Nat
  windowMs : Int
  cooldownMs : Int
deriving Repr, DecidableEq

/-- The two private `Map`s of `RateLimiter`.  `attempts` is read only through
`this.attempts.get(key) || []`, so an absent key is identified with `[]`;
`cooldowns` is read through `get`, so absence is `none`. -/
structure RateLimiterState where
  attempts : String → List Int
  cooldowns : String → Option Int

/-- Point update of a map modelled as a function. -/
def updateFn {α : Type} (m : String → α) (k : String) (v : α) : String → α :=
  fun x => if x = k then v else m x

/-- A fresh `new RateLimiter()`. -/
def RateLimiter.initial : RateLimiterState :=
  { attempts := fun _ => [], cooldowns := fun _ => none }

/-- JS `Math.ceil(ms / 1000)` on integers (`Int.ediv` is floor division for a
positive divisor, and `⌈a/b⌉ = ⌊(a + b - 1) / b⌋`). -/
def ceilDiv1000 (ms : Int) : Int := Int.ediv (ms + 999) 1000

/-- The part of `checkLimit` after the cooldown check: prune the attempt
window, either enter cooldown and throw, or record the attempt. -/
def RateLimiter.checkOpen (s : RateLimiterState) (k : String)
    (cfg : RateLimitConfig) (now : Int) :
    Except GiwaErrorVal Unit × RateLimiterState :=
  let recentAttempts := (s.attempts k).filter (fun t => now - t < cfg.windowMs)
  if cfg.maxAttempts ≤ recentAttempts.length then
    let cooldownEndTime := now + cfg.cooldownMs
    let cooldownSeconds := ceilDiv1000 cfg.cooldownMs
    (Except.error (giwaSecurityError3
        ("Rate limit exceeded. Try again in " ++ toString cooldownSeconds
          ++ " seconds.")
        "RATE_LIMIT_EXCEEDED"
        [("cooldownSeconds", cooldownSeconds), ("cooldownEnd", cooldownEndTime)]),
      { attempts := updateFn s.attempts k []
        cooldowns := updateFn s.cooldowns k (some cooldownEndTime) })
  else
    (Except.ok (),
      { s with attempts := updateFn s.attempts k (recentAttempts ++ [now]) })

/-- Source `RateLimiter.checkLimit(key, config)` at time `now = Date.now()`.  The
source guard is `if (cooldownEnd && now < cooldownEnd)`: the truthiness test
`cooldownEnd ≠ 0` is kept from the source. -/
def RateLimiter.checkLimit (s : RateLimiterState) (k : String)
    (cfg : RateLimitConfig) (now : Int) :
    Except GiwaErrorVal Unit × RateLimiterState :=
  match s.cooldowns k with
  | some cooldownEnd =>
    if cooldownEnd ≠ 0 ∧ now < cooldownEnd then
      let remainingSeconds := ceilDiv1000 (cooldownEnd - now)
      (Except.error (giwaSecurityError3
          ("Rate limit exceeded. Try again in " ++ toString remainingSeconds
            ++ " seconds.")
          "RATE_LIMIT_EXCEEDED"
          [("remainingSeconds", remainingSeconds), ("cooldownEnd", cooldownEnd)]),
        s)
    else RateLimiter.checkOpen s k cfg now
  | none => RateLimiter.checkOpen s k cfg now

/-- Source `RateLimiter.getRemainingAttempts(key, config)` at time `now`; the method
performs no writes, so the state component is returned unchanged. -/
def RateLimiter.getRemainingAttempts (s : RateLimiterState) (k : String)
    (cfg : RateLimitConfig) (now : Int) : Nat × RateLimiterState :=
  let inCooldown :=
    match s.cooldowns k with
    | some c => decide (c ≠ 0 ∧ now < c)
    | none => false
  if inCooldown then (0, s)
  else
    let recentAttempts := (s.attempts k).filter (fun t => now - t < cfg.windowMs)
    (cfg.maxAttempts - recentAttempts.length, s)

/-- Source `RateLimiter.getCooldownEnd(key)` at time `now`: returns the active
deadline, otherwise cleans up an expired (truthy) entry and returns `null`. -/
def RateLimiter.getCooldownEnd (s : RateLimiterState) (k : String)
    (now : Int) : Option Int × RateLimiterState :=
  match s.cooldowns k with
  | none => (none, s)
  | some c =>
    if c ≠ 0 ∧ now < c then (some c, s)
    else if c ≠ 0 then
      (none, { s with cooldowns := updateFn s.cooldowns k none })
    else (none, s)

/-- Iterated `checkLimit` calls on one key at the given times, collecting the
outcomes. -/
def RateLimiter.checkSeq (s : RateLimiterState) (k : String)
    (cfg : RateLimitConfig) :
    List Int → List (Except GiwaErrorVal Unit) × RateLimiterState
  | [] => ([], s)
  | t :: rest =>
    let step := RateLimiter.checkLimit s k cfg t
    let tail := RateLimiter.checkSeq step.2 k cfg rest
    (step.1 :: tail.1, tail.2)

/-- Source `EXPORT_RATE_LIMIT`: 3 attempts / 1 minute window / 5 minute cooldown. -/
def EXPORT_RATE_LIMIT : RateLimitConfig :=
  { maxAttempts := 3, windowMs := 60 * 1000, cooldownMs := 5 * 60 * 1000 }

/-- Source `WALLET_OPERATION_RATE_LIMIT`: 5 attempts / 1 minute / 2 minute cooldown. -/
def WALLET_OPERATION_RATE_LIMIT : RateLimitConfig :=
  { maxAttempts := 5, windowMs := 60 * 1000, cooldownMs := 2 * 60 * 1000 }

/-! ## ExpoSecureStorage (ExpoSecureStorage.ts lines 79–103) -/

/-- The contents of the underlying `expo-secure-store`, abstracted as a list
of stored key-value pairs. -/
structure ExpoStoreState where
  items : List (String × String)
deriving Repr, DecidableEq

/-- Source `ExpoSecureStorage.getAllKeys`: the method body is a single unconditional
`throw new GiwaSecurityError(...)`; it never touches the store. -/
def ExpoSecureStorage.getAllKeys (s : ExpoStoreState) :
    Except GiwaErrorVal (List String) × ExpoStoreState :=
  (Except.error (giwaSecurityError1
      "expo-secure-store는 getAllKeys를 지원하지 않습니다."), s)

/-- Source `ExpoSecureStorage.clear`: likewise a single unconditional `throw`. -/
def ExpoSecureStorage.clear (s : ExpoStoreState) :
    Except GiwaErrorVal Unit × ExpoStoreState :=
  (Except.error (giwaSecurityError1
      "expo-secure-store는 전체 삭제를 지원하지 않습니다. 개별 키를 삭제해주세요."), s)

/-! ## GiwaProvider initialization (GiwaProvider.tsx lines 128–213) -/

/-- Observable outcome of the provider's `initialize` body: which state
setters ran and what error the `catch` recorded. -/
structure InitOutcome where
  environmentSet : Option String
  adaptersObtained : Bool
  walletManagerCreated : Bool
  isInitialized : Bool
  error : Option String
deriving Repr, DecidableEq

/-- The sequential body of `initialize` in `GiwaProvider.tsx` (the `mounted`
flag held true, no timeout): detect the environment (`env` is its result, a
string as in the `Environment` union), throw before obtaining adapters and
before `new WalletManager(...)` when it is `"unsupported"`, otherwise obtain
adapters, construct the `WalletManager`, and run the remaining wallet-loading
steps, whose outcome is abstracted as `rest`.  A throw is caught by the
surrounding `catch`, which records the error. -/
def GiwaProvider.initializeRun (env : String) (rest : Except String Unit) :
    InitOutcome :=
  if env = "unsupported" then
    { environmentSet := some env
      adaptersObtained := false
      walletManagerCreated := false
      isInitialized := false
      error := some "Secure storage not found. Please install expo-secure-store or react-native-keychain." }
  else
    match rest with
    | Except.ok _ =>
      { environmentSet := some env, adaptersObtained := true
        walletManagerCreated := true, isInitialized := true, error := none }
    | Except.error m =>
      { environmentSet := some env, adaptersObtained := true
        walletManagerCreated := true, isInitialized := false, error := some m }

example : looksLikePrivateKey "[REDACTED]" = false := by decide
example : looksLikeMnemonic "[REDACTED_MNEMONIC]" = false := by decide
example : isSensitiveKey "publicKey" = true := by decide
example : isSensitiveKey "note" = false := by decide
example : looksLikeMnemonic "a b c d e f g h i j k l" = true := by decide
example :
    looksLikePrivateKey
      ("0x" ++ String.mk (List.replicate 64 'a')) = true := by decide
example : maskAddress "0x1234567890abcd" = "0x1234...abcd" := by decide

/-! ## Helper lemmas -/

theorem listStartsWith_sound {n t : List Char} (h : listStartsWith n t = true) :
    n <+: t := by
  induction n generalizing t with
  | nil => exact List.nil_prefix
  | cons a as ih =>
    cases t with
    | nil => simp [listStartsWith] at h
    | cons b bs =>
      simp only [listStartsWith, Bool.and_eq_true, beq_iff_eq] at h
      obtain ⟨rfl, h2⟩ := h
      obtain ⟨r, hr⟩ := ih h2
      exact ⟨r, by simp [hr]⟩

theorem listContainsSub_mem {n h : List Char} (hc : listContainsSub n h = true)
    {c : Char} (hm : c ∈ n) : c ∈ h := by
  obtain ⟨t, ht, hs⟩ := List.any_eq_true.mp hc
  have hpre : n <+: t := listStartsWith_sound hs
  have hsuf : t <:+ h := (List.mem_tails t h).mp ht
  have hinf : n <:+: h :=
    List.IsInfix.trans (List.IsPrefix.isInfix hpre) (List.IsSuffix.isInfix hsuf)
  exact List.Sublist.subset (List.IsInfix.sublist hinf) hm

theorem lowerChar_ne_K (c : Char) : lowerChar c ≠ 'K' := by
  intro h
  unfold lowerChar at h
  cases hf : upperLowerTable.find? (fun p => p.1 == c) with
  | none =>
    rw [hf] at h
    simp at h
    subst h
    exact absurd hf (by decide)
  | some p =>
    rw [hf] at h
    simp at h
    have hmem : p ∈ upperLowerTable := List.mem_of_find?_eq_some hf
    have hK : ('K' : Char) ∈ upperLowerTable.map Prod.snd :=
      h ▸ List.mem_map_of_mem Prod.snd hmem
    exact absurd hK (by decide)

/-! ## Claim C1 -/

/-- A concrete 64-character hex run. -/
def hexRunChars : List Char := List.replicate 64 'a'

/-- A string value that *contains* a `0x`-prefixed 64-hex substring without
*being* one (it has surrounding words). -/
def leakValue : String := "leak 0x" ++ String.mk hexRunChars ++ " end"

/-- C1, counterexample: the claim states that no stored string value contains
a substring matching the 64-hex pattern.  `sanitizeDetails` stores
`leakValue` unchanged under the non-sensitive key `"note"`, yet `leakValue`
decomposes as `"leak " ++ m ++ " end"` where the middle part `m` matches the
64-hex pattern with a `0x` prefix — the claim is false as stated, because
`looksLikePrivateKey` anchors its regex to the whole (trimmed) value. -/
theorem claim1_counterexample :
    sanitizeDetails (some [("note", DetailValue.str leakValue)])
        = some [("note", DetailValue.str leakValue)]
      ∧ leakValue = "leak " ++ String.mk ('0' :: 'x' :: hexRunChars) ++ " end"
      ∧ matchesHex64 ('0' :: 'x' :: hexRunChars) = true := by
  refine ⟨by decide, by decide, by decide⟩

/-- C1, amended: no stored string value *is* (after trimming) a 64-hex string
and none tokenizes into exactly 12 or 24 whitespace-separated words — every
value for which `looksLikePrivateKey` or `looksLikeMnemonic` holds is
replaced by a redaction marker before storage, and the markers themselves
match neither pattern. -/
theorem claim1_amended (details : List (String × DetailValue)) (k s : String)
    (h : (k, DetailValue.str s) ∈ (sanitizeDetails (some details)).getD []) :
    looksLikePrivateKey s = false ∧ looksLikeMnemonic s = false := by
  have h' : (k, DetailValue.str s) ∈ details.map sanitizeEntry := by
    simpa [sanitizeDetails] using h
  obtain ⟨⟨k0, v0⟩, hkv, heq⟩ := List.mem_map.mp h'
  cases v0 with
  | raw t =>
    simp only [sanitizeEntry] at heq
    split at heq
    · simp only [Prod.mk.injEq, DetailValue.str.injEq] at heq
      obtain ⟨-, hv⟩ := heq
      subst hv
      exact ⟨by decide, by decide⟩
    · simp at heq
  | str v =>
    simp only [sanitizeEntry] at heq
    repeat' split at heq
    all_goals
      simp only [Prod.mk.injEq, DetailValue.str.injEq] at heq
    all_goals obtain ⟨-, hv⟩ := heq
    all_goals subst hv
    all_goals
      first
        | exact ⟨by decide, by decide⟩
        | exact ⟨Bool.eq_false_iff.mpr (by assumption),
            Bool.eq_false_iff.mpr (by assumption)⟩

/-- C1, witness: `claim1_amended` applied to a concrete details map. -/
theorem claim1_witness :
    looksLikePrivateKey "hello world" = false
      ∧ looksLikeMnemonic "hello world" = false :=
  claim1_amended [("note", DetailValue.str "hello world")] "note" "hello world"
    (by decide)

/-! ## Claim C9 -/

/-- C9: sensitive-key matching in `sanitizeDetails` is case-insensitive
substring containment of the six terms in the lowercased key: (1) every
details entry whose key is sensitive is stored as `"[REDACTED]"` whatever the
type of its value; (2) the substring examples `"publicKey"`, `"monkeys"` and
`"keyCount"` all match; (3) the mixed-case term `"privateKey"` itself can
never occur in a lowercased key; (4) keys containing `"privatekey"` after
lowercasing are nevertheless sensitive (via the `"key"` term). -/
theorem claim9_sensitive_keys :
    (∀ (details : List (String × DetailValue)) (kv : String × DetailValue),
        kv ∈ details → isSensitiveKey kv.1 = true →
        (kv.1, DetailValue.str "[REDACTED]")
          ∈ (sanitizeDetails (some details)).getD [])
      ∧ isSensitiveKey "publicKey" = true
      ∧ isSensitiveKey "monkeys" = true
      ∧ isSensitiveKey "keyCount" = true
      ∧ (∀ k : String,
          listContainsSub "privateKey".toList (lowerChars k.toList) = false)
      ∧ (∀ k : String,
          listContainsSub "privatekey".toList (lowerChars k.toList) = true →
          isSensitiveKey k = true) := by
  refine ⟨?_, by decide, by decide, by decide, ?_, ?_⟩
  · intro details kv hmem hsens
    simp only [sanitizeDetails, Option.getD_some]
    exact List.mem_map.mpr ⟨kv, hmem, by simp [sanitizeEntry, hsens]⟩
  · intro k
    cases hc : listContainsSub "privateKey".toList (lowerChars k.toList) with
    | false => rfl
    | true =>
      exfalso
      have hK : ('K' : Char) ∈ lowerChars k.toList :=
        listContainsSub_mem hc (by decide)
      obtain ⟨c, -, hlc⟩ := List.mem_map.mp hK
      exact lowerChar_ne_K c hlc
  · intro k hc
    have : listContainsSub "key".toList (lowerChars k.toList) = true := by
      obtain ⟨t, ht, hs⟩ := List.any_eq_true.mp hc
      obtain ⟨r, hr⟩ := listStartsWith_sound hs
      refine List.any_eq_true.mpr ?_
      refine ⟨'k' :: 'e' :: 'y' :: r, ?_, ?_⟩
      · rw [List.mem_tails] at ht ⊢
        obtain ⟨u, hu⟩ := ht
        refine ⟨u ++ ['p', 'r', 'i', 'v', 'a', 't', 'e'], ?_⟩
        rw [← hu, ← hr]
        simp [listStartsWith]
      · simp [listStartsWith]
    unfold isSensitiveKey
    refine List.any_eq_true.mpr ⟨"key", by decide, this⟩

/-- C9, witness: `claim9_sensitive_keys` instantiated at concrete inputs:
the sensitive-key branch at `("seed", raw)` inside a one-entry map, and the
`"privatekey"`-containment conjunct at the key `"myPrivateKey"`. -/
theorem claim9_witness :
    (("seed", DetailValue.str "[REDACTED]")
        ∈ (sanitizeDetails (some [("seed", DetailValue.raw "42")])).getD [])
      ∧ isSensitiveKey "myPrivateKey" = true :=
  ⟨claim9_sensitive_keys.1 [("seed", DetailValue.raw "42")]
      ("seed", DetailValue.raw "42") (by decide) (by decide),
    (claim9_sensitive_keys.2.2.2.2.2) "myPrivateKey" (by decide)⟩

/-! ## Claims C5 and C6 -/

theorem one_le_effectiveMaxEntries (m : Option Nat) :
    1 ≤ effectiveMaxEntries m := by
  simp only [effectiveMaxEntries]
  split <;> omega

theorem logStep_eq_drop (cap : Nat) (l : List SecurityLogEntry)
    (e : SecurityLogEntry) (h : l.length ≤ cap) :
    logStep cap l e = (l ++ [e]).drop ((l.length + 1) - cap) := by
  simp only [logStep]
  split
  · rename_i hlt
    rw [List.length_append, List.length_singleton] at hlt
    have h1 : l.length + 1 - cap = 1 := by omega
    rw [h1]
  · rename_i hlt
    rw [List.length_append, List.length_singleton] at hlt
    have h0 : l.length + 1 - cap = 0 := by omega
    rw [h0, List.drop_zero]

theorem logStep_length_le (cap : Nat) (l : List SecurityLogEntry)
    (e : SecurityLogEntry) (h : l.length ≤ cap) :
    (logStep cap l e).length ≤ cap := by
  rw [logStep_eq_drop cap l e h]
  simp
  omega

theorem logRun_newEntries (cfg : AuditConfig) (l : List SecurityLogEntry)
    (i : LogInput) :
    (logRun cfg l i).newEntries
      = logStep (effectiveMaxEntries cfg.maxLogEntries) l (mkEntry i) := by
  rcases cfg with ⟨m, hdl⟩
  cases hdl with
  | none => rfl
  | some h =>
    simp only [logRun]
    cases hh : h (mkEntry i) <;> simp [hh]

theorem logFold_eq_drop (cfg : AuditConfig) :
    ∀ (inputs : List LogInput) (start : List SecurityLogEntry),
    start.length ≤ effectiveMaxEntries cfg.maxLogEntries →
    logFold cfg start inputs
      = (start ++ inputs.map mkEntry).drop
          ((start.length + inputs.length) - effectiveMaxEntries cfg.maxLogEntries) := by
  intro inputs
  induction inputs with
  | nil =>
    intro start hs
    have h0 : start.length - effectiveMaxEntries cfg.maxLogEntries = 0 := by
      omega
    simp [logFold, h0]
  | cons i rest ih =>
    intro start hs
    have hstep : logFold cfg start (i :: rest)
        = logFold cfg (logStep (effectiveMaxEntries cfg.maxLogEntries) start
            (mkEntry i)) rest := by
      simp [logFold, logRun_newEntries]
    rw [hstep]
    set cap := effectiveMaxEntries cfg.maxLogEntries with hcap
    have hlen : (logStep cap start (mkEntry i)).length ≤ cap :=
      logStep_length_le cap start (mkEntry i) hs
    rw [ih _ hlen]
    rw [logStep_eq_drop cap start (mkEntry i) hs]
    have hd : start.length + 1 - cap ≤ (start ++ [mkEntry i]).length := by
      rw [List.length_append, List.length_singleton]
      omega
    rw [← List.drop_append_of_le_length hd]
    rw [List.drop_drop]
    have hslen : ((start ++ [mkEntry i]).drop (start.length + 1 - cap)).length
        = start.length + 1 - (start.length + 1 - cap) := by
      simp
    rw [hslen]
    have harr : (start ++ [mkEntry i]) ++ rest.map mkEntry
        = start ++ (i :: rest).map mkEntry := by
      simp
    rw [harr]
    congr 1
    simp only [List.length_cons]
    omega

/-- C5: starting from an empty log, after any sequence of `log` calls the
in-memory log holds at most `effectiveMaxEntries` entries (default 100) and
equals exactly the suffix of the most recent entries in insertion order —
each overflowing insertion evicted the oldest entry. -/
theorem claim5_fifo (cfg : AuditConfig) (inputs : List LogInput) :
    (logFold cfg [] inputs).length ≤ effectiveMaxEntries cfg.maxLogEntries
      ∧ logFold cfg [] inputs
        = (inputs.map mkEntry).drop
            (inputs.length - effectiveMaxEntries cfg.maxLogEntries) := by
  have h := logFold_eq_drop cfg inputs [] (by simp)
  simp only [List.nil_append, List.length_nil, Nat.zero_add] at h
  refine ⟨?_, h⟩
  rw [h]
  simp
  omega

/-- C6: with a custom log handler configured, one `log` call hands the
sanitized entry to the handler exactly once, never lets a handler exception
reach the caller (the outcome is `ok` even for a throwing handler), stores
the entry in the in-memory log regardless, and leaves the stored log
identical to what it would be without any handler. -/
theorem claim6_sink (m : Option Nat)
    (h : SecurityLogEntry → Except String Unit)
    (entries : List SecurityLogEntry) (i : LogInput) :
    (logRun ⟨m, some h⟩ entries i).sinkCalls = [mkEntry i]
      ∧ (logRun ⟨m, some h⟩ entries i).outcome = Except.ok ()
      ∧ mkEntry i ∈ (logRun ⟨m, some h⟩ entries i).newEntries
      ∧ (logRun ⟨m, some h⟩ entries i).newEntries
          = (logRun ⟨m, none⟩ entries i).newEntries := by
  refine ⟨?_, ?_, ?_, ?_⟩
  · simp only [logRun]
    cases hh : h (mkEntry i) <;> simp [hh]
  · simp only [logRun]
    cases hh : h (mkEntry i) <;> simp [hh]
  · rw [logRun_newEntries]
    simp only [logStep]
    split
    · rename_i hlt
      have hcap := one_le_effectiveMaxEntries m
      have hne : 1 ≤ entries.length := by
        simp only [List.length_append, List.length_singleton] at hlt
        omega
      rw [List.drop_append_of_le_length hne]
      exact List.mem_append_right _ (by simp)
    · exact List.mem_append_right _ (by simp)
  · rw [logRun_newEntries, logRun_newEntries]

/-! ## Rate limiter lemmas -/

theorem checkLimit_ok (s : RateLimiterState) (k : String)
    (cfg : RateLimitConfig) (now : Int)
    (hcd : s.cooldowns k = none)
    (hfil : (s.attempts k).filter (fun x => decide (now - x < cfg.windowMs))
        = s.attempts k)
    (hlt : (s.attempts k).length < cfg.maxAttempts) :
    RateLimiter.checkLimit s k cfg now
      = (Except.ok (),
          { s with attempts := updateFn s.attempts k (s.attempts k ++ [now]) }) := by
  simp only [RateLimiter.checkLimit, hcd]
  simp only [RateLimiter.checkOpen, hfil]
  rw [if_neg (by omega)]

theorem checkLimit_enter_cooldown (s : RateLimiterState) (k : String)
    (cfg : RateLimitConfig) (now : Int)
    (hcd : s.cooldowns k = none)
    (hfil : (s.attempts k).filter (fun x => decide (now - x < cfg.windowMs))
        = s.attempts k)
    (hge : cfg.maxAttempts ≤ (s.attempts k).length) :
    RateLimiter.checkLimit s k cfg now
      = (Except.error (giwaSecurityError3
          ("Rate limit exceeded. Try again in "
            ++ toString (ceilDiv1000 cfg.cooldownMs) ++ " seconds.")
          "RATE_LIMIT_EXCEEDED"
          [("cooldownSeconds", ceilDiv1000 cfg.cooldownMs),
            ("cooldownEnd", now + cfg.cooldownMs)]),
        { attempts := updateFn s.attempts k []
          cooldowns := updateFn s.cooldowns k (some (now + cfg.cooldownMs)) }) := by
  simp only [RateLimiter.checkLimit, hcd]
  simp only [RateLimiter.checkOpen, hfil]
  rw [if_pos hge]

theorem checkSeq_open_all_ok (cfg : RateLimitConfig) (k : String) :
    ∀ (ts : List Int) (s : RateLimiterState) (pre : List Int),
    s.cooldowns k = none →
    s.attempts k = pre →
    (∀ a ∈ pre ++ ts, ∀ b ∈ pre ++ ts, b - a < cfg.windowMs) →
    pre.length + ts.length ≤ cfg.maxAttempts →
    RateLimiter.checkSeq s k cfg ts
      = (List.replicate ts.length (Except.ok ()),
          { attempts := updateFn s.attempts k (pre ++ ts)
            cooldowns := s.cooldowns }) := by
  intro ts
  induction ts with
  | nil =>
    intro s pre hcd hat hwin hlen
    have hupd : updateFn s.attempts k (pre ++ []) = s.attempts := by
      funext x
      unfold updateFn
      split
      · rename_i hx
        rw [hx, List.append_nil, ← hat]
      · rfl
    simp only [RateLimiter.checkSeq, List.length_nil, List.replicate_zero,
      hupd]
  | cons t rest ih =>
    intro s pre hcd hat hwin hlen
    have hmemt : t ∈ pre ++ t :: rest := by simp
    have hfil : (s.attempts k).filter
        (fun x => decide (t - x < cfg.windowMs)) = s.attempts k := by
      rw [hat]
      apply List.filter_eq_self.mpr
      intro a ha
      exact decide_eq_true (hwin a (by simp [ha]) t hmemt)
    have hlt : (s.attempts k).length < cfg.maxAttempts := by
      rw [hat]
      simp only [List.length_cons] at hlen
      omega
    have hstep := checkLimit_ok s k cfg t hcd hfil hlt
    have hs1at : ({ s with
        attempts := updateFn s.attempts k (s.attempts k ++ [t]) } :
          RateLimiterState).attempts k = pre ++ [t] := by
      simp [updateFn, hat]
    have hs1cd : ({ s with
        attempts := updateFn s.attempts k (s.attempts k ++ [t]) } :
          RateLimiterState).cooldowns k = none := hcd
    have hwin' : ∀ a ∈ (pre ++ [t]) ++ rest, ∀ b ∈ (pre ++ [t]) ++ rest,
        b - a < cfg.windowMs := by
      intro a ha b hb
      rw [List.append_assoc, List.singleton_append] at ha hb
      exact hwin a ha b hb
    have hlen' : (pre ++ [t]).length + rest.length ≤ cfg.maxAttempts := by
      rw [List.length_append, List.length_singleton]
      simp only [List.length_cons] at hlen
      omega
    have htail := ih _ (pre ++ [t]) hs1cd hs1at hwin' hlen'
    simp only [RateLimiter.checkSeq, hstep, htail]
    rw [Prod.mk.injEq]
    constructor
    · simp [List.replicate_succ]
    · rw [RateLimiterState.mk.injEq]
      constructor
      · funext x
        by_cases hx : x = k
        · simp [updateFn, hx, List.append_assoc]
        · simp [updateFn, hx]
      · rfl

/-- Splitting an iterated `checkLimit` run at an append. -/
theorem checkSeq_append (s : RateLimiterState) (k : String)
    (cfg : RateLimitConfig) (ts us : List Int) :
    RateLimiter.checkSeq s k cfg (ts ++ us)
      = ((RateLimiter.checkSeq s k cfg ts).1
          ++ (RateLimiter.checkSeq (RateLimiter.checkSeq s k cfg ts).2
              k cfg us).1,
        (RateLimiter.checkSeq (RateLimiter.checkSeq s k cfg ts).2 k cfg us).2) := by
  induction ts generalizing s with
  | nil => simp [RateLimiter.checkSeq]
  | cons t rest ih =>
    simp only [List.cons_append, RateLimiter.checkSeq, List.append_eq, ih,
      List.nil_append]

/-! ## Claim C2 -/

/-- C2: from an Open state with empty attempt window, `maxAttempts` calls at
times `ts` that all lie within one `windowMs` of each other all succeed, and
the next call `tN` still inside the window fails with the cooldown error,
clears the attempt history of the key, and sets the cooldown deadline to
`tN + cooldownMs`. -/
theorem claim2_window (cfg : RateLimitConfig) (k : String)
    (s0 : RateLimiterState) (ts : List Int) (tN : Int)
    (hopen : s0.attempts k = [] ∧ s0.cooldowns k = none)
    (hlen : ts.length = cfg.maxAttempts)
    (hwin : ∀ a ∈ ts ++ [tN], ∀ b ∈ ts ++ [tN], b - a < cfg.windowMs) :
    (RateLimiter.checkSeq s0 k cfg (ts ++ [tN])).1
        = List.replicate cfg.maxAttempts (Except.ok ())
          ++ [Except.error (giwaSecurityError3
              ("Rate limit exceeded. Try again in "
                ++ toString (ceilDiv1000 cfg.cooldownMs) ++ " seconds.")
              "RATE_LIMIT_EXCEEDED"
              [("cooldownSeconds", ceilDiv1000 cfg.cooldownMs),
                ("cooldownEnd", tN + cfg.cooldownMs)])]
      ∧ ((RateLimiter.checkSeq s0 k cfg (ts ++ [tN])).2).attempts k = []
      ∧ ((RateLimiter.checkSeq s0 k cfg (ts ++ [tN])).2).cooldowns k
          = some (tN + cfg.cooldownMs) := by
  obtain ⟨hat0, hcd0⟩ := hopen
  have hwin1 : ∀ a ∈ ([] : List Int) ++ ts, ∀ b ∈ ([] : List Int) ++ ts,
      b - a < cfg.windowMs := by
    intro a ha b hb
    simp only [List.nil_append] at ha hb
    exact hwin a (List.mem_append_left _ ha) b (List.mem_append_left _ hb)
  have h1 := checkSeq_open_all_ok cfg k ts s0 [] hcd0 hat0 hwin1
    (by simp [hlen])
  set s1 : RateLimiterState :=
    { attempts := updateFn s0.attempts k ([] ++ ts)
      cooldowns := s0.cooldowns } with hs1
  have hs1at : s1.attempts k = ts := by simp [hs1, updateFn]
  have hs1cd : s1.cooldowns k = none := hcd0
  have hfilN : (s1.attempts k).filter
      (fun x => decide (tN - x < cfg.windowMs)) = s1.attempts k := by
    rw [hs1at]
    apply List.filter_eq_self.mpr
    intro a ha
    exact decide_eq_true
      (hwin a (List.mem_append_left _ ha) tN (by simp))
  have hgeN : cfg.maxAttempts ≤ (s1.attempts k).length := by
    rw [hs1at, hlen]
  have h2 := checkLimit_enter_cooldown s1 k cfg tN hs1cd hfilN hgeN
  rw [checkSeq_append, h1]
  simp only [RateLimiter.checkSeq, h2, hlen]
  refine ⟨by trivial, ?_, ?_⟩
  · simp [updateFn]
  · simp [updateFn]

/-- C2, witness: the export scenario — three attempts at 1 s intervals
succeed, the fourth within the same minute fails with the 300-second
cooldown. -/
theorem claim2_witness :
    (RateLimiter.checkSeq RateLimiter.initial "export" EXPORT_RATE_LIMIT
        ([1000, 2000, 3000] ++ [4000])).1
        = List.replicate EXPORT_RATE_LIMIT.maxAttempts (Except.ok ())
          ++ [Except.error (giwaSecurityError3
              ("Rate limit exceeded. Try again in "
                ++ toString (ceilDiv1000 EXPORT_RATE_LIMIT.cooldownMs)
                ++ " seconds.")
              "RATE_LIMIT_EXCEEDED"
              [("cooldownSeconds", ceilDiv1000 EXPORT_RATE_LIMIT.cooldownMs),
                ("cooldownEnd", 4000 + EXPORT_RATE_LIMIT.cooldownMs)])]
      ∧ ((RateLimiter.checkSeq RateLimiter.initial "export" EXPORT_RATE_LIMIT
          ([1000, 2000, 3000] ++ [4000])).2).attempts "export" = []
      ∧ ((RateLimiter.checkSeq RateLimiter.initial "export" EXPORT_RATE_LIMIT
          ([1000, 2000, 3000] ++ [4000])).2).cooldowns "export"
          = some (4000 + EXPORT_RATE_LIMIT.cooldownMs) :=
  claim2_window EXPORT_RATE_LIMIT "export" RateLimiter.initial
    [1000, 2000, 3000] 4000 ⟨rfl, rfl⟩ (by decide) (by decide)

/-! ## Claim C3 -/

/-- C3: for a key in Cooldown (deadline `c` set, attempt history cleared at
cooldown entry), every `checkLimit` call strictly before `c` fails with the
remaining-seconds error and leaves the state unchanged, and any first call at
or after `c` succeeds with the attempt window reset: only the new timestamp
is recorded, the prior history no longer counts. -/
theorem claim3_cooldown (cfg : RateLimitConfig) (k : String)
    (s : RateLimiterState) (c : Int)
    (hcd : s.cooldowns k = some c) (hat : s.attempts k = [])
    (hcpos : 0 < c) (hmax : 0 < cfg.maxAttempts) :
    (∀ now : Int, now < c →
        (RateLimiter.checkLimit s k cfg now).1
            = Except.error (giwaSecurityError3
                ("Rate limit exceeded. Try again in "
                  ++ toString (ceilDiv1000 (c - now)) ++ " seconds.")
                "RATE_LIMIT_EXCEEDED"
                [("remainingSeconds", ceilDiv1000 (c - now)),
                  ("cooldownEnd", c)])
          ∧ (RateLimiter.checkLimit s k cfg now).2 = s)
      ∧ (∀ now : Int, c ≤ now →
          (RateLimiter.checkLimit s k cfg now).1 = Except.ok ()
            ∧ ((RateLimiter.checkLimit s k cfg now).2).attempts k = [now]) := by
  constructor
  · intro now hnow
    simp only [RateLimiter.checkLimit, hcd]
    rw [if_pos ⟨by omega, hnow⟩]
    exact ⟨rfl, rfl⟩
  · intro now hnow
    simp only [RateLimiter.checkLimit, hcd]
    rw [if_neg (by omega)]
    simp only [RateLimiter.checkOpen, hat, List.filter_nil, List.length_nil]
    rw [if_neg (by omega)]
    constructor
    · rfl
    · simp [updateFn]

/-- A state in Cooldown for the `"export"` key (deadline 304000 ms, attempt
history cleared), as `checkLimit` produces when entering cooldown. -/
def cooldownState : RateLimiterState :=
  { attempts := fun _ => []
    cooldowns := fun x => if x = "export" then some 304000 else none }

/-- C3, witness: `claim3_cooldown` at the concrete cooldown state — a call
at 5000 (before the deadline) fails with 299 remaining seconds, a call at
304000 (the deadline) succeeds and records only itself. -/
theorem claim3_witness :
    ((RateLimiter.checkLimit cooldownState "export" EXPORT_RATE_LIMIT 5000).1
          = Except.error (giwaSecurityError3
              ("Rate limit exceeded. Try again in "
                ++ toString (ceilDiv1000 (304000 - 5000)) ++ " seconds.")
              "RATE_LIMIT_EXCEEDED"
              [("remainingSeconds", ceilDiv1000 (304000 - 5000)),
                ("cooldownEnd", 304000)])
        ∧ (RateLimiter.checkLimit cooldownState "export"
            EXPORT_RATE_LIMIT 5000).2 = cooldownState)
      ∧ ((RateLimiter.checkLimit cooldownState "export"
            EXPORT_RATE_LIMIT 304000).1 = Except.ok ()
        ∧ ((RateLimiter.checkLimit cooldownState "export"
            EXPORT_RATE_LIMIT 304000).2).attempts "export" = [304000]) :=
  ⟨(claim3_cooldown EXPORT_RATE_LIMIT "export" cooldownState 304000 rfl rfl
      (by decide) (by decide)).1 5000 (by decide),
    (claim3_cooldown EXPORT_RATE_LIMIT "export" cooldownState 304000 rfl rfl
      (by decide) (by decide)).2 304000 (by decide)⟩

/-! ## Claim C4 -/

/-- C4: the rate limiter's rejection is *not* a typed `RateLimitExceeded`
failure carrying retry-after metadata.  At the failing input (a fourth export
attempt inside the window) the thrown error is the runtime application of the
two-parameter `GiwaSecurityError` constructor: its `code` is
`"SECURITY_ERROR"`, not `"RATE_LIMIT_EXCEEDED"` (that string lands in the
`cause` slot), and the third constructor argument — the object carrying
`remainingSeconds`/`cooldownSeconds` — is discarded, as witnessed by the
error value being independent of it; the remaining seconds survive only
inside the human-readable message. -/
theorem claim4_code_bug :
    ((RateLimiter.checkSeq RateLimiter.initial "export" EXPORT_RATE_LIMIT
          [0, 1, 2, 3]).1).getLast?
        = some (Except.error (giwaSecurityError3
            "Rate limit exceeded. Try again in 300 seconds."
            "RATE_LIMIT_EXCEEDED"
            [("cooldownSeconds", 300), ("cooldownEnd", 300003)]))
      ∧ (giwaSecurityError3 "Rate limit exceeded. Try again in 300 seconds."
          "RATE_LIMIT_EXCEEDED"
          [("cooldownSeconds", 300), ("cooldownEnd", 300003)]).code
          = "SECURITY_ERROR"
      ∧ (giwaSecurityError3 "Rate limit exceeded. Try again in 300 seconds."
          "RATE_LIMIT_EXCEEDED"
          [("cooldownSeconds", 300), ("cooldownEnd", 300003)]).code
          ≠ "RATE_LIMIT_EXCEEDED"
      ∧ (giwaSecurityError3 "Rate limit exceeded. Try again in 300 seconds."
          "RATE_LIMIT_EXCEEDED"
          [("cooldownSeconds", 300), ("cooldownEnd", 300003)]).cause
          = some "RATE_LIMIT_EXCEEDED"
      ∧ giwaSecurityError3 "Rate limit exceeded. Try again in 300 seconds."
          "RATE_LIMIT_EXCEEDED"
          [("cooldownSeconds", 300), ("cooldownEnd", 300003)]
          = giwaSecurityError3 "Rate limit exceeded. Try again in 300 seconds."
              "RATE_LIMIT_EXCEEDED" [] := by
  refine ⟨by rfl, by rfl, by decide, by rfl, by rfl⟩

/-! ## Claim C7 -/

/-- A state with an already-expired cooldown for `"export"` (deadline 5). -/
def expiredCooldownState : RateLimiterState :=
  { attempts := fun _ => []
    cooldowns := fun x => if x = "export" then some 5 else none }

/-- C7, counterexample: `getCooldownEnd` is *not* a read-only projection.  On
an expired cooldown it deletes the entry: the state after the query differs
from the state before (`none` vs `some 5`), and a subsequent `checkLimit`
whose clock reads an earlier time (`Date.now()` is not monotone) succeeds
after the query where it would have failed without it. -/
theorem claim7_counterexample :
    ((RateLimiter.getCooldownEnd expiredCooldownState "export" 10).2).cooldowns
          "export" = none
      ∧ expiredCooldownState.cooldowns "export" = some 5
      ∧ (RateLimiter.checkLimit
            (RateLimiter.getCooldownEnd expiredCooldownState "export" 10).2
            "export" EXPORT_RATE_LIMIT 3).1 = Except.ok ()
      ∧ (RateLimiter.checkLimit expiredCooldownState "export"
            EXPORT_RATE_LIMIT 3).1
          = Except.error (giwaSecurityError3
              "Rate limit exceeded. Try again in 1 seconds."
              "RATE_LIMIT_EXCEEDED"
              [("remainingSeconds", 1), ("cooldownEnd", 5)]) := by
  refine ⟨by rfl, by rfl, by rfl, by rfl⟩

theorem checkOpen_fst_eq_of_attempts_eq (s t : RateLimiterState) (k : String)
    (cfg : RateLimitConfig) (now : Int) (h : s.attempts k = t.attempts k) :
    (RateLimiter.checkOpen s k cfg now).1
      = (RateLimiter.checkOpen t k cfg now).1 := by
  simp only [RateLimiter.checkOpen, h]
  by_cases hC : cfg.maxAttempts
      ≤ ((t.attempts k).filter (fun x => decide (now - x < cfg.windowMs))).length
  · rw [if_pos hC, if_pos hC]
  · rw [if_neg hC, if_neg hC]

/-- C7, amended: `getRemainingAttempts` is a pure read-only projection, while
`getCooldownEnd` never touches attempt history or other keys and modifies the
queried key only by deleting an *expired* cooldown entry — an unobservable
cleanup for non-decreasing clocks: at every time `now' ≥ now`, `checkLimit`,
`getRemainingAttempts` and `getCooldownEnd` return the same results on the
cleaned state as on the original. -/
theorem claim7_amended (cfg : RateLimitConfig) (k : String)
    (s : RateLimiterState) (now now' : Int) (hle : now ≤ now') :
    (RateLimiter.getRemainingAttempts s k cfg now).2 = s
      ∧ ((RateLimiter.getCooldownEnd s k now).2).attempts = s.attempts
      ∧ (∀ k' : String, k' ≠ k →
          ((RateLimiter.getCooldownEnd s k now).2).cooldowns k'
            = s.cooldowns k')
      ∧ (RateLimiter.checkLimit (RateLimiter.getCooldownEnd s k now).2
          k cfg now').1 = (RateLimiter.checkLimit s k cfg now').1
      ∧ (RateLimiter.getRemainingAttempts
          (RateLimiter.getCooldownEnd s k now).2 k cfg now').1
          = (RateLimiter.getRemainingAttempts s k cfg now').1
      ∧ (RateLimiter.getCooldownEnd (RateLimiter.getCooldownEnd s k now).2
          k now').1 = (RateLimiter.getCooldownEnd s k now').1 := by
  have hdico : (RateLimiter.getCooldownEnd s k now).2 = s
      ∨ ∃ c, s.cooldowns k = some c ∧ c ≠ 0 ∧ c ≤ now
          ∧ (RateLimiter.getCooldownEnd s k now).2
              = { s with cooldowns := updateFn s.cooldowns k none } := by
    rcases hc : s.cooldowns k with _ | c
    · left
      simp [RateLimiter.getCooldownEnd, hc]
    · by_cases h1 : c ≠ 0 ∧ now < c
      · left
        simp only [RateLimiter.getCooldownEnd, hc]
        rw [if_pos h1]
      · by_cases h2 : c = 0
        · left
          simp only [RateLimiter.getCooldownEnd, hc]
          rw [if_neg h1, if_neg (by simp [h2])]
        · right
          refine ⟨c, rfl, h2, by omega, ?_⟩
          simp only [RateLimiter.getCooldownEnd, hc]
          rw [if_neg h1, if_pos h2]
  refine ⟨?_, ?_, ?_, ?_, ?_, ?_⟩
  · simp only [RateLimiter.getRemainingAttempts]
    split <;> rfl
  · rcases hdico with hs' | ⟨c, hc, hne0, hcle, hs'⟩ <;> rw [hs']
  · intro k' hk
    rcases hdico with hs' | ⟨c, hc, hne0, hcle, hs'⟩ <;> rw [hs']
    simp [updateFn, hk]
  · rcases hdico with hs' | ⟨c, hc, hne0, hcle, hs'⟩
    · rw [hs']
    · rw [hs']
      have hupd : (updateFn s.cooldowns k none) k = none := by
        simp [updateFn]
      simp only [RateLimiter.checkLimit, hupd, hc]
      rw [if_neg (by omega)]
      exact checkOpen_fst_eq_of_attempts_eq _ _ _ _ _ rfl
  · rcases hdico with hs' | ⟨c, hc, hne0, hcle, hs'⟩
    · rw [hs']
    · rw [hs']
      have hupd : (updateFn s.cooldowns k none) k = none := by
        simp [updateFn]
      simp only [RateLimiter.getRemainingAttempts, hupd, hc]
      have h2 : decide (c ≠ 0 ∧ now' < c) = false := by
        rw [decide_eq_false_iff_not]
        omega
      rw [h2]
      simp
  · rcases hdico with hs' | ⟨c, hc, hne0, hcle, hs'⟩
    · rw [hs']
    · rw [hs']
      have hupd : (updateFn s.cooldowns k none) k = none := by
        simp [updateFn]
      simp only [RateLimiter.getCooldownEnd, hupd, hc]
      rw [if_neg (by omega), if_pos hne0]

/-- C7, witness: `claim7_amended` at the expired-cooldown state, query time
10 and later observation time 12; state change at another key checked at
`"wallet"`. -/
theorem claim7_witness :
    (RateLimiter.getRemainingAttempts expiredCooldownState "export"
        EXPORT_RATE_LIMIT 10).2 = expiredCooldownState
      ∧ ((RateLimiter.getCooldownEnd expiredCooldownState "export" 10).2).cooldowns
          "wallet" = expiredCooldownState.cooldowns "wallet"
      ∧ (RateLimiter.checkLimit
          (RateLimiter.getCooldownEnd expiredCooldownState "export" 10).2
          "export" EXPORT_RATE_LIMIT 12).1
          = (RateLimiter.checkLimit expiredCooldownState "export"
              EXPORT_RATE_LIMIT 12).1
      ∧ (RateLimiter.getCooldownEnd
          (RateLimiter.getCooldownEnd expiredCooldownState "export" 10).2
          "export" 12).1
          = (RateLimiter.getCooldownEnd expiredCooldownState "export" 12).1 :=
  ⟨(claim7_amended EXPORT_RATE_LIMIT "export" expiredCooldownState 10 12
      (by decide)).1,
    (claim7_amended EXPORT_RATE_LIMIT "export" expiredCooldownState 10 12
      (by decide)).2.2.1 "wallet" (by decide),
    (claim7_amended EXPORT_RATE_LIMIT "export" expiredCooldownState 10 12
      (by decide)).2.2.2.1,
    (claim7_amended EXPORT_RATE_LIMIT "export" expiredCooldownState 10 12
      (by decide)).2.2.2.2.2⟩

/-! ## Claim C8 -/

/-- C8: when environment detection yields `"unsupported"`, the provider's
initialize body throws before adapters are obtained and before
`new WalletManager(...)` runs — no wallet manager and no storage is ever
created, the recorded error is the fail-fast message and initialization never
completes; conversely a created wallet manager implies a supported
environment with adapters obtained first. -/
theorem claim8_fail_fast :
    (∀ rest : Except String Unit,
        (GiwaProvider.initializeRun "unsupported" rest).walletManagerCreated
            = false
          ∧ (GiwaProvider.initializeRun "unsupported" rest).adaptersObtained
            = false
          ∧ (GiwaProvider.initializeRun "unsupported" rest).isInitialized
            = false
          ∧ (GiwaProvider.initializeRun "unsupported" rest).error
            = some "Secure storage not found. Please install expo-secure-store or react-native-keychain.")
      ∧ (∀ (env : String) (rest : Except String Unit),
          (GiwaProvider.initializeRun env rest).walletManagerCreated = true →
          env ≠ "unsupported"
            ∧ (GiwaProvider.initializeRun env rest).adaptersObtained = true) := by
  constructor
  · intro rest
    simp [GiwaProvider.initializeRun]
  · intro env rest h
    by_cases henv : env = "unsupported"
    · rw [henv] at h
      simp [GiwaProvider.initializeRun] at h
    · refine ⟨henv, ?_⟩
      unfold GiwaProvider.initializeRun
      rw [if_neg henv]
      cases rest <;> rfl

/-- C8, witness: `claim8_fail_fast` instantiated at the `"expo"` environment
with a successful remaining body. -/
theorem claim8_witness :
    ("expo" : String) ≠ "unsupported"
      ∧ (GiwaProvider.initializeRun "expo" (Except.ok ())).adaptersObtained
          = true :=
  claim8_fail_fast.2 "expo" (Except.ok ()) (by decide)

/-! ## Claim C10 -/

/-- C10: `ExpoSecureStorage.getAllKeys` and `ExpoSecureStorage.clear` throw a
`GiwaSecurityError` on every store state — they never succeed — and neither
modifies any stored item. -/
theorem claim10_unsupported_ops (s : ExpoStoreState) :
    ExpoSecureStorage.getAllKeys s
        = (Except.error (giwaSecurityError1
            "expo-secure-store는 getAllKeys를 지원하지 않습니다."), s)
      ∧ ExpoSecureStorage.clear s
          = (Except.error (giwaSecurityError1
              "expo-secure-store는 전체 삭제를 지원하지 않습니다. 개별 키를 삭제해주세요."), s)
      ∧ (giwaSecurityError1
          "expo-secure-store는 getAllKeys를 지원하지 않습니다.").name
          = "GiwaSecurityError"
      ∧ ((ExpoSecureStorage.getAllKeys s).2).items = s.items
      ∧ ((ExpoSecureStorage.clear s).2).items = s.items :=
  ⟨rfl, rfl, rfl, rfl, rfl⟩
